import Mathlib

/-!
Verification of the CodeHawk-Binary MIPS simulator core against its
natural-language specification.

The development shallowly embeds the simulator's value domain, register
state, delayed program counter, memory regions and the `simulate` routines
of the MIPS opcodes `or`, `and` and `beq`, together with the global and
base memory regions of `chb/mips/simulation/MIPSimMemory.py`.

Source files embedded:
- src/chb/mips/opcodes/MIPSOr.py
- src/chb/mips/opcodes/MIPSAnd.py
- src/chb/mips/opcodes/MIPSBranchEqual.py
- src/chb/mips/opcodes/MIPSShiftLeftLogicalVariable.py
- src/chb/arm/opcodes/ARMPush.py
- src/chb/mips/simulation/MIPSimMemory.py

The helper modules `chb/simulation/SimValue.py`, `chb/simulation/
SimSymbolicValue.py`, `chb/simulation/SimUtil.py`, `chb/simulation/
SimMemory.py` and `chb/mips/simulation/MIPSimulationState.py` are not part
of the source tree under verification; the definitions standing in for them
are modelled from the specification and are marked as such in their doc
comments.
-/

/-- Hexadecimal rendering of a natural number in the style of Python's
`hex` builtin: a `0x` prefixed lowercase string, `0x0` for zero. -/
def hexStr (n : Nat) : String :=
  "0x" ++ String.mk (Nat.toDigits 16 n)

/-- Boolean test that string `p` is an initial segment of string `s`,
computed on the underlying character lists. -/
def strLeads (p s : String) : Bool :=
  p.data.isPrefixOf s.data

/-- Modelled from the spec: `chb/simulation/SimValue.py` and
`chb/simulation/SimSymbolicValue.py` are not in the source tree.  The spec
describes the value domain as a tagged variant: `Literal(width, bits)`
(32-bit granularity, with undefined literals such as `simUndefinedDW`),
`Address(region-id, offset)`, `Symbol(name)`, `UndefinedBoolean`, plus the
constant-string address and file-pointer values distinguished by
`MIPSBranchEqual.simulate`. -/
inductive SimValue where
  | literal (value : Nat) (defined : Bool) (size : Nat)
  | symbol (name : String)
  | globalAddress (offset : Nat)
  | stringAddress (s : String)
  | filePointer (name : String)
  | boolv (b : Bool)
  | undefinedBool
deriving DecidableEq

/-- The undefined double-word literal `SV.simUndefinedDW`. -/
def simUndefinedDW : SimValue := .literal 0 false 4

/-- The canonical true boolean singleton `SV.simtrue`. -/
def simtrue : SimValue := .boolv true

/-- The canonical false boolean singleton `SV.simfalse`. -/
def simfalse : SimValue := .boolv false

/-- The canonical undefined boolean singleton `SV.simUndefinedBool`. -/
def simUndefinedBool : SimValue := .undefinedBool

def SimValue.is_literal : SimValue → Bool
  | .literal _ _ _ => true
  | _ => false

def SimValue.is_defined : SimValue → Bool
  | .literal _ d _ => d
  | .undefinedBool => false
  | _ => true

def SimValue.is_symbol : SimValue → Bool
  | .symbol _ => true
  | _ => false

/-- Modelled from the spec: symbolic values (symbols, addresses, string
addresses, file pointers) are the non-literal, non-boolean values. -/
def SimValue.is_symbolic : SimValue → Bool
  | .symbol _ => true
  | .globalAddress _ => true
  | .stringAddress _ => true
  | .filePointer _ => true
  | _ => false

def SimValue.is_address : SimValue → Bool
  | .globalAddress _ => true
  | _ => false

def SimValue.is_string_address : SimValue → Bool
  | .stringAddress _ => true
  | _ => false

def SimValue.is_file_pointer : SimValue → Bool
  | .filePointer _ => true
  | _ => false

def SimValue.is_true : SimValue → Bool
  | .boolv b => b
  | _ => false

/-- Offset of an address value (`SimAddress.offsetvalue`). -/
def SimValue.offsetvalue : SimValue → Nat
  | .globalAddress o => o
  | _ => 0

/-- Concrete value carried by a literal (`SimLiteralValue.value`). -/
def SimValue.litvalue : SimValue → Nat
  | .literal v _ _ => v
  | _ => 0

/-- Name carried by a symbol (`SimSymbol.name`). -/
def SimValue.symname : SimValue → String
  | .symbol n => n
  | _ => ""

/-- Modelled from the spec: textual form of a value as produced by Python
`str`; a defined literal prints as lowercase hex, a symbol prints as its
name (the textual relation of §3/glossary "Symbolic value"). -/
def strv : SimValue → String
  | .literal v true _ => hexStr v
  | .literal _ false _ => "?"
  | .symbol n => n
  | .globalAddress o => hexStr o
  | .stringAddress s => "string:" ++ s
  | .filePointer n => "file:" ++ n
  | .boolv b => if b then "1" else "0"
  | .undefinedBool => "?"

/-- `SSV.mk_symbol`: fresh symbolic value with the given name. -/
def mk_symbol (name : String) : SimValue := .symbol name

/-- Modelled from the spec: `SV.mk_simvalue(value, size)` builds a defined
literal of the requested byte size, truncated to its width. -/
def mk_simvalue (value : Nat) (size : Nat) : SimValue :=
  .literal (value % 2 ^ (8 * size)) true size

/-- Modelled from the spec: `SimDoubleWordValue.bitwise_and` computes the
bit-accurate conjunction at the 32-bit operand width (§4.1, §8). -/
def bitwise_and : SimValue → SimValue → SimValue
  | .literal v1 d1 _, .literal v2 d2 _ =>
      .literal ((v1 &&& v2) % 2 ^ 32) (d1 && d2) 4
  | _, _ => simUndefinedDW

/-- Modelled from the spec: `SimLiteralValue.bitwise_or` computes the
bit-accurate disjunction at the 32-bit operand width (§4.1, §8). -/
def bitwise_or : SimValue → SimValue → SimValue
  | .literal v1 d1 _, .literal v2 d2 _ =>
      .literal ((v1 ||| v2) % 2 ^ 32) (d1 && d2) 4
  | _, _ => simUndefinedDW

/-- Modelled from the spec: `SimDoubleWordValue.is_equal` produces a
boolean literal on two defined literals and `UndefinedBoolean`
otherwise (§4.1 "equality/ordering producing a boolean literal or
UndefinedBoolean"). -/
def is_equal : SimValue → SimValue → SimValue
  | .literal v1 d1 _, .literal v2 d2 _ =>
      if d1 && d2 then (if v1 = v2 then simtrue else simfalse)
      else simUndefinedBool
  | _, _ => simUndefinedBool

/-- Modelled from the spec: `chb/mips/simulation/MIPSimulationState.py` is
not in the source tree.  Per §3 the state owns the register file, the
program counter and the pending delayed program counter; the diagnostic
log and memory regions are threaded separately below. -/
structure SimState where
  registers : List (String × SimValue)
  programcounter : Nat
  delayed_programcounter : Option Nat
deriving DecidableEq

/-- Register file read; an absent register reads as the undefined
double-word value. -/
def getReg (s : SimState) (r : String) : SimValue :=
  match (s.registers.find? (fun p => p.1 == r)).map (·.2) with
  | some v => v
  | none => simUndefinedDW

/-- Modelled from the spec: `simstate.get_rhs(iaddr, operand)` resolves a
register source operand to its current value (§4.3 step 2).  Operands are
represented by their register name; the dictionary indirection of
`MIPSOperand` is outside the embedded fragment. -/
def get_rhs (s : SimState) (operand : String) : SimValue :=
  getReg s operand

/-- Modelled from the spec: `simstate.set(iaddr, operand, value)` writes a
register destination operand and returns the concrete location
touched (§4.3 step 4). -/
def stateSet (s : SimState) (operand : String) (v : SimValue) :
    String × SimState :=
  (operand, { s with registers := (operand, v) :: s.registers })

/-- Modelled from the spec: program-counter advance applies a pending
delayed counter if one is set (two-phase delay-slot rule, §3 invariants),
else adds the 4-byte instruction length. -/
def increment_program_counter (s : SimState) : SimState :=
  match s.delayed_programcounter with
  | some t => { s with programcounter := t, delayed_programcounter := none }
  | none => { s with programcounter := s.programcounter + 4 }

/-- Modelled from the spec: a branch target is stored as the pending
delayed counter, becoming active only on the next advance. -/
def set_delayed_program_counter (s : SimState) (t : Nat) : SimState :=
  { s with delayed_programcounter := some t }

/-- Modelled from the spec: `SU.simassign` renders the trace line of an
assignment as `lhs := value`, with the intermediate expression
parenthesised after it (§4.3 step 6, §8 scenario trace `"r0 := 0x0"`). -/
def simassign (iaddr : String) (s : SimState) (lhs : String)
    (rhs : SimValue) (intermediates : String) : String :=
  lhs ++ " := " ++ strv rhs ++ " (" ++ intermediates ++ ")"

/-- Modelled from the spec: `SU.simbranch` renders the trace line of a
branch decision (§4.3 step 6). -/
def simbranch (iaddr : String) (s : SimState) (truetgt falsetgt : Nat)
    (expr : String) (result : SimValue) : String :=
  "if " ++ expr ++ " then goto " ++ hexStr truetgt
    ++ " else goto " ++ hexStr falsetgt

/-- Structured failures raised by the simulate routines:
`SU.CHBSymbolicExpression`, `SU.CHBSimBranchUnknownError`, and the Python
`UnboundLocalError` that the early raise paths of
`MIPSBranchEqual.simulate` (lines 142-155) incur by referencing
`truetgt`/`falsetgt` before their assignment on line 157. -/
inductive SimError where
  | symbolicExpression (iaddr : String) (dst : String) (expr : String)
  | branchUnknown (iaddr : String) (truetgt falsetgt : Nat) (msg : String)
  | unboundLocal (name : String)
deriving DecidableEq

/-- Register operands of a three-register MIPS ALU instruction
(`rd`, `rs`, `rt`). -/
structure RTypeOperands where
  dst : String
  src1 : String
  src2 : String
deriving DecidableEq

/-- Embedding of `MIPSOr.simulate` (src/chb/mips/opcodes/MIPSOr.py lines
106-158), including the literal/symbol branch of lines 138-148 exactly as
written in the source: there the result symbol is built as
`str(src2val) + ' | ' + src2val.name`, using the second operand twice. -/
def orSimulate (op : RTypeOperands) (iaddr : String) (s : SimState) :
    SimState × String :=
  let src1val := get_rhs s op.src1
  let src2val := get_rhs s op.src2
  if src1val.is_literal && src1val.is_defined
      && src2val.is_literal && src2val.is_defined then
    let result := bitwise_or src1val src2val
    let ls1 := stateSet s op.dst result
    let s2 := increment_program_counter ls1.2
    (s2, simassign iaddr s2 ls1.1 result (strv src1val ++ " | " ++ strv src2val))
  else if src1val.is_symbol && src2val.is_literal && src2val.is_defined then
    let result := mk_symbol (src1val.symname ++ " | " ++ strv src2val)
    let ls1 := stateSet s op.dst result
    let s2 := increment_program_counter ls1.2
    (s2, simassign iaddr s2 ls1.1 result (strv src1val ++ " | " ++ strv src2val))
  else if src1val.is_literal && src1val.is_defined && src2val.is_symbol then
    let result := mk_symbol (strv src2val ++ " | " ++ src2val.symname)
    let ls1 := stateSet s op.dst result
    let s2 := increment_program_counter ls1.2
    (s2, simassign iaddr s2 ls1.1 result (strv src1val ++ " | " ++ strv src2val))
  else
    let result := simUndefinedDW
    let ls1 := stateSet s op.dst result
    let s2 := increment_program_counter ls1.2
    (s2, simassign iaddr s2 ls1.1 result (strv src1val ++ " | " ++ strv src2val))

/-- Embedding of `MIPSAnd.simulate` (src/chb/mips/opcodes/MIPSAnd.py lines
105-131): a symbolic operand raises `CHBSymbolicExpression`; otherwise the
destination receives the bitwise conjunction. -/
def andSimulate (op : RTypeOperands) (iaddr : String) (s : SimState) :
    Except SimError (SimState × String) :=
  let src1val := get_rhs s op.src1
  let src2val := get_rhs s op.src2
  if src1val.is_symbolic || src2val.is_symbolic then
    .error (.symbolicExpression iaddr op.dst
      (strv src1val ++ " +&" ++ strv src2val))
  else
    let result := bitwise_and src1val src2val
    let ls1 := stateSet s op.dst result
    let s2 := increment_program_counter ls1.2
    .ok (s2, simassign iaddr s2 ls1.1 result
      ("val(" ++ op.src1 ++ ") = " ++ strv src1val
        ++ ", val(" ++ op.src2 ++ ") = " ++ strv src2val))

/-- Operands of `MIPSBranchEqual`: the two source registers and the
absolute address value of the target-offset operand
(`self.tgt_offset.absolute_address_value`, line 157). -/
structure BeqOperands where
  src1 : String
  src2 : String
  tgt : Nat
deriving DecidableEq

/-- Embedding of `MIPSBranchEqual.simulate`
(src/chb/mips/opcodes/MIPSBranchEqual.py lines 115-173).  The guard on
line 120 reads `src1val.is_string_address or src1val.is_address`, so any
address in `rs` is routed to the constant-string branch and the
equal-address branch of lines 125-131 is unreachable.  The raise
statements on lines 142-147 and 150-155 reference `truetgt`/`falsetgt`
before their assignment on lines 157-158 and so fail with a Python
`UnboundLocalError`, embedded as `SimError.unboundLocal`. -/
def beqSimulate (op : BeqOperands) (iaddr : String) (s : SimState) :
    Except SimError (SimState × String) :=
  let src1val := get_rhs s op.src1
  let src2val := get_rhs s op.src2
  let condRes : Except SimError SimValue :=
    if src1val.is_string_address || src1val.is_address then
      (if src2val.is_literal then .ok simfalse else .ok simUndefinedBool)
    else if src1val.is_address && src2val.is_address then
      (if src1val.offsetvalue = src2val.offsetvalue then .ok simtrue
       else .ok simUndefinedBool)
    else if src1val.is_literal && src2val.is_literal then
      .ok (is_equal src1val src2val)
    else if src1val.is_file_pointer && src2val.is_literal then
      (if src2val.litvalue = 0 then .ok simfalse
       else .error (.unboundLocal "truetgt"))
    else
      .error (.unboundLocal "truetgt")
  match condRes with
  | .error e => .error e
  | .ok result =>
    let truetgt := op.tgt
    let falsetgt := s.programcounter + 8
    if result.is_defined then
      let s1 := increment_program_counter s
      let s2 :=
        if result.is_true then set_delayed_program_counter s1 truetgt
        else set_delayed_program_counter s1 falsetgt
      let expr := strv src1val ++ " == " ++ strv src2val
      .ok (s2, simbranch iaddr s2 truetgt falsetgt expr result)
    else
      .error (.branchUnknown iaddr truetgt falsetgt
        ("branch-equal condition: " ++ strv src1val ++ " == " ++ strv src2val))

/-- Interned instruction record handed to every opcode constructor
(`chb.util.IndexedTable.IndexedTableValue`): a tag list and an argument
list. -/
structure IndexedTableValue where
  tags : List String
  args : List Nat
deriving DecidableEq

/-- Modelled from the spec: `MIPSOpcode.check_key` is not in the source
tree; per §4.4/§7 it is the decode-time arity/tag check, fatal
(StructuralError) when the record's tag or argument count differs from the
expected counts. -/
def check_key (reqtagcount reqargcount : Nat) (name : String)
    (ixval : IndexedTableValue) : Except String Unit :=
  if ixval.tags.length = reqtagcount ∧ ixval.args.length = reqargcount then
    .ok ()
  else
    .error ("Invalid " ++ name ++ " instruction record")

/-- Decoded `MIPSAnd` opcode object wrapping its record. -/
structure MIPSAndOpcode where
  ixval : IndexedTableValue
deriving DecidableEq

/-- Decoded `MIPSOr` opcode object wrapping its record. -/
structure MIPSOrOpcode where
  ixval : IndexedTableValue
deriving DecidableEq

/-- Decoded `MIPSBranchEqual` opcode object wrapping its record. -/
structure MIPSBranchEqualOpcode where
  ixval : IndexedTableValue
deriving DecidableEq

/-- Decoded `MIPSShiftLeftLogicalVariable` opcode object wrapping its
record. -/
structure MIPSSllvOpcode where
  ixval : IndexedTableValue
deriving DecidableEq

/-- Decoded `ARMPush` opcode object wrapping its record. -/
structure ARMPushOpcode where
  ixval : IndexedTableValue
deriving DecidableEq

/-- Embedding of `MIPSAnd.__init__` (src/chb/mips/opcodes/MIPSAnd.py lines
62-67): calls `self.check_key(1, 3, "And")`. -/
def mipsAndInit (ixval : IndexedTableValue) :
    Except String MIPSAndOpcode :=
  match check_key 1 3 "And" ixval with
  | .ok _ => .ok ⟨ixval⟩
  | .error e => .error e

/-- Embedding of `MIPSOr.__init__` (src/chb/mips/opcodes/MIPSOr.py lines
64-68): only calls the superclass constructor, with no `check_key`. -/
def mipsOrInit (ixval : IndexedTableValue) :
    Except String MIPSOrOpcode :=
  .ok ⟨ixval⟩

/-- Embedding of `MIPSBranchEqual.__init__`
(src/chb/mips/opcodes/MIPSBranchEqual.py lines 63-67): no `check_key`. -/
def mipsBranchEqualInit (ixval : IndexedTableValue) :
    Except String MIPSBranchEqualOpcode :=
  .ok ⟨ixval⟩

/-- Embedding of `MIPSShiftLeftLogicalVariable.__init__`
(src/chb/mips/opcodes/MIPSShiftLeftLogicalVariable.py): no `check_key`. -/
def mipsSllvInit (ixval : IndexedTableValue) :
    Except String MIPSSllvOpcode :=
  .ok ⟨ixval⟩

/-- Embedding of `ARMPush.__init__` (src/chb/arm/opcodes/ARMPush.py lines
56-61): calls `self.check_key(2, 3, "Push")`. -/
def armPushInit (ixval : IndexedTableValue) :
    Except String ARMPushOpcode :=
  match check_key 2 3 "Push" ixval with
  | .ok _ => .ok ⟨ixval⟩
  | .error e => .error e

/-- Sparse byte map of a memory region's overlay, newest entry first. -/
def lookupByte (bytes : List (Nat × Nat)) (a : Nat) : Option Nat :=
  (bytes.find? (fun p => p.1 == a)).map (·.2)

/-- Overwrite of one overlay byte (`SimMemory.set_byte`); the newest entry
shadows older entries for the same address. -/
def setByte (bytes : List (Nat × Nat)) (a v : Nat) : List (Nat × Nat) :=
  (a, v) :: bytes

/-- All bytes of the span `[offset, offset + size)`, or `none` when any
byte is absent from the overlay. -/
def getSpan (bytes : List (Nat × Nat)) (offset : Nat) :
    Nat → Option (List Nat)
  | 0 => some []
  | n + 1 =>
    match lookupByte bytes offset, getSpan bytes (offset + 1) n with
    | some b, some rest => some (b :: rest)
    | _, _ => none

/-- Little-endian assembly of a byte list into one number. -/
def assembleLE (bs : List Nat) : Nat :=
  bs.foldr (fun b acc => b + 256 * acc) 0

/-- Modelled from the spec: `chb/simulation/SimMemory.py` is not in the
source tree.  Per §4.2 and §7 the common storage layer raises a
`CHBSimError` for an access to an invalid (freed) region and for a span
with unrecorded bytes (the uninitialized case the regions recover from),
and otherwise assembles the span bytes per endianness into a defined
literal of the requested size. -/
def simMemoryGet (valid : Bool) (bytes : List (Nat × Nat))
    (offset size : Nat) : Except String SimValue :=
  if valid then
    match getSpan bytes offset size with
    | some bs => .ok (.literal (assembleLE bs) true size)
    | none => .error ("no value at address " ++ hexStr offset)
  else
    .error "attempt to access freed memory"

/-- Address argument of the memory `get`/`set` contract
(`SSV.SimAddress`): its offset and definedness. -/
structure SimAddress where
  offsetvalue : Nat
  defined : Bool
deriving DecidableEq

/-- Modelled from the spec: textual form of a global address, the
lowercase hex of its offset. -/
def strAddr (a : SimAddress) : String :=
  hexStr a.offsetvalue

/-- Static image accessor of `chb.elfformat.ELFHeader` (out-of-scope
collaborator, §6): `get_elf_section_index(offset)` and
`get_memory_value(section, offset)`. -/
structure ELFHeader where
  get_elf_section_index : Nat → Option Nat
  get_memory_value : Nat → Nat → Option Nat

/-- `MIPSimGlobalMemory`: overlay byte map, static image, ordered
per-address access history, and the user patch table (address hex string
to 4-byte replacement hex string). -/
structure MIPSimGlobalMemory where
  bytes : List (Nat × Nat)
  elfheader : ELFHeader
  accesses : List (String × List String)
  patched_globals : List (String × String)

/-- Lookup in a string-keyed association list. -/
def lookupStr (l : List (String × String)) (k : String) : Option String :=
  (l.find? (fun p => p.1 == k)).map (·.2)

/-- Lookup of one address's recorded access history. -/
def lookupAccess (acc : List (String × List String)) (k : String) :
    Option (List String) :=
  (acc.find? (fun p => p.1 == k)).map (·.2)

/-- Append an entry to one address's history
(`self._accesses.setdefault(str(address), [])` followed by `append`,
MIPSimMemory.py lines 151-152). -/
def appendAccess (acc : List (String × List String)) (k entry : String) :
    List (String × List String) :=
  if (acc.find? (fun p => p.1 == k)).isSome then
    acc.map (fun p => if p.1 == k then (p.1, p.2 ++ [entry]) else p)
  else
    acc ++ [(k, [entry])]

/-- Hexadecimal digit value of a character. -/
def hexDigitVal (c : Char) : Nat :=
  if c.isDigit then c.toNat - '0'.toNat
  else if 'a' ≤ c && c ≤ 'f' then c.toNat - 'a'.toNat + 10
  else if 'A' ≤ c && c ≤ 'F' then c.toNat - 'A'.toNat + 10
  else 0

/-- Numeric value of a hex string as read by Python's `int(s, 16)`,
accepting an optional `0x` prefix. -/
def parseHex (s : String) : Nat :=
  let t := if strLeads "0x" s then s.drop 2 else s
  t.data.foldl (fun acc c => 16 * acc + hexDigitVal c) 0

/-- `MIPSimGlobalMemory.has_patched_global` (MIPSimMemory.py lines
99-100): membership of `hex(address.offsetvalue)` in the patch table. -/
def has_patched_global (gm : MIPSimGlobalMemory) (address : SimAddress) :
    Bool :=
  (lookupStr gm.patched_globals (hexStr address.offsetvalue)).isSome

/-- `MIPSimGlobalMemory.get_patched_global` (MIPSimMemory.py lines
102-108): the patch table's 4-byte replacement value for the address. -/
def get_patched_global (gm : MIPSimGlobalMemory) (address : SimAddress) :
    Except String SimValue :=
  match lookupStr gm.patched_globals (hexStr address.offsetvalue) with
  | some hexval => .ok (mk_simvalue (parseHex hexval) 4)
  | none => .error ("No patched global found for " ++ strAddr address)

/-- Materialization loop of `MIPSimGlobalMemory.get_from_section`
(MIPSimMemory.py lines 133-142): store every byte of the requested span
from the resolved image section into the overlay, failing with a
`CHBError` when the section holds no value for some byte. -/
def storeSpan (bytes : List (Nat × Nat)) (elf : ELFHeader)
    (sectionindex : Nat) (offset : Nat) :
    Nat → Except String (List (Nat × Nat))
  | 0 => .ok bytes
  | n + 1 =>
    match elf.get_memory_value sectionindex offset with
    | some b => storeSpan (setByte bytes offset b) elf sectionindex (offset + 1) n
    | none =>
      .error ("No value found for " ++ hexStr offset
        ++ " in section " ++ toString sectionindex)

/-- Embedding of `MIPSimGlobalMemory.get_from_section` (MIPSimMemory.py
lines 110-155).  The diagnostic log is threaded explicitly in place of
`self.simstate.add_logmsg`. -/
def get_from_section (gm : MIPSimGlobalMemory)
    (log : List (String × String)) (iaddr : String)
    (address : SimAddress) (size : Nat) :
    Except String (SimValue × MIPSimGlobalMemory × List (String × String)) :=
  if address.defined then
    let offset := address.offsetvalue
    if has_patched_global gm address then
      match get_patched_global gm address with
      | .ok v => .ok (v, gm, log)
      | .error e => .error e
    else
      match gm.elfheader.get_elf_section_index offset with
      | none =>
        .ok (mk_simvalue 0 size, gm,
          log ++ [("global memory", strAddr address ++ " uninitialized")])
      | some sectionindex =>
        match storeSpan gm.bytes gm.elfheader sectionindex offset size with
        | .error e => .error e
        | .ok bytes1 =>
          match simMemoryGet true bytes1 offset size with
          | .error e => .error e
          | .ok memval0 =>
            let memval :=
              if memval0.is_defined then memval0 else mk_simvalue 0 size
            let log1 :=
              log ++ [("global memory", strAddr address ++ " uninitialized")]
            let acc1 :=
              appendAccess gm.accesses (strAddr address)
                (iaddr ++ ":" ++ strv memval)
            .ok (memval, { gm with bytes := bytes1, accesses := acc1 }, log1)
  else
    .error ("Address is not defined: " ++ strAddr address)

/-- Embedding of `MIPSimGlobalMemory.get` (MIPSimMemory.py lines 85-97):
consult the overlay first and fall back to `get_from_section` when the
overlay value is undefined or the storage layer errors. -/
def globalGet (gm : MIPSimGlobalMemory) (log : List (String × String))
    (iaddr : String) (address : SimAddress) (size : Nat) :
    Except String (SimValue × MIPSimGlobalMemory × List (String × String)) :=
  match simMemoryGet true gm.bytes address.offsetvalue size with
  | .ok result =>
    if result.is_defined then .ok (result, gm, log)
    else get_from_section gm log iaddr address size
  | .error _ => get_from_section gm log iaddr address size

/-- `MIPSimBaseMemory` (MIPSimMemory.py lines 158-210): a base/heap
region with its overlay, optional declared buffer size, and validity
status string (`"valid"`/`"freed"`). -/
structure MIPSimBaseMemory where
  name : String
  bytes : List (Nat × Nat)
  buffersizeval : Option Nat
  status : String
deriving DecidableEq

/-- `MIPSimBaseMemory.buffersize` (lines 178-183): the declared size, or a
`CHBError` when none was declared. -/
def MIPSimBaseMemory.buffersize (m : MIPSimBaseMemory) :
    Except String Nat :=
  match m.buffersizeval with
  | some v => .ok v
  | none => .error "Buffersize of memory is not known"

/-- `MIPSimBaseMemory.free` (lines 185-186). -/
def MIPSimBaseMemory.free (m : MIPSimBaseMemory) : MIPSimBaseMemory :=
  { m with status := "freed" }

/-- `MIPSimBaseMemory.is_valid` (lines 188-189). -/
def MIPSimBaseMemory.is_valid (m : MIPSimBaseMemory) : Bool :=
  m.status == "valid"

/-- `MIPSimBaseMemory.has_buffersize` (lines 191-192): evaluates the
`buffersize` property (which raises when the size is unknown) and compares
its integer result against `None`. -/
def MIPSimBaseMemory.has_buffersize (m : MIPSimBaseMemory) :
    Except String Bool :=
  match m.buffersize with
  | .ok _ => .ok true
  | .error e => .error e

/-- Embedding of `MIPSimBaseMemory.get` (MIPSimMemory.py lines 194-210):
a storage-layer `CHBSimError` is converted to a descriptive symbolic
value naming the region, the offset, and the error text. -/
def MIPSimBaseMemory.get (m : MIPSimBaseMemory) (iaddr : String)
    (address : SimAddress) (size : Nat) : SimValue :=
  match simMemoryGet m.is_valid m.bytes address.offsetvalue size with
  | .error e =>
    .symbol (m.name ++ "[" ++ toString address.offsetvalue ++ "]"
      ++ " (value not retrieved: " ++ e ++ ")")
  | .ok memval => memval

/-- Character-list view of string concatenation. -/
theorem strData_append (s t : String) : (s ++ t).data = s.data ++ t.data :=
  rfl

/-- A string leads any extension of itself. -/
theorem strLeads_self_append (p q : String) : strLeads p (p ++ q) = true := by
  unfold strLeads
  rw [strData_append]
  exact List.isPrefixOf_iff_prefix.mpr (List.prefix_append _ _)

/-- Leading segments survive appending on the right. -/
theorem strLeads_append_right (p s t : String) (h : strLeads p s = true) :
    strLeads p (s ++ t) = true := by
  unfold strLeads at h ⊢
  rw [strData_append]
  exact List.isPrefixOf_iff_prefix.mpr
    ((List.isPrefixOf_iff_prefix.mp h).trans (List.prefix_append _ _))

/-- Appending an entry to one address's history makes that entry the last
element of the address's recorded list. -/
theorem appendAccess_lookup (acc : List (String × List String))
    (k e : String) :
    lookupAccess (appendAccess acc k e) k
      = some ((lookupAccess acc k).getD [] ++ [e]) := by
  induction acc with
  | nil => simp [appendAccess, lookupAccess, List.find?]
  | cons a rest ih =>
    by_cases hk : a.1 = k
    · have hbeq : (a.1 == k) = true := by simpa using hk
      simp [appendAccess, lookupAccess, List.find?, hbeq, hk]
    · have hbeq : (a.1 == k) = false := by simpa using hk
      have hskip : ∀ (x : List (String × List String)),
          lookupAccess (a :: x) k = lookupAccess x k := by
        intro x
        simp [lookupAccess, List.find?, hbeq]
      by_cases hrest : (rest.find? (fun p => p.1 == k)).isSome = true
      · have hrw : appendAccess (a :: rest) k e
            = a :: rest.map
                (fun p => if p.1 == k then (p.1, p.2 ++ [e]) else p) := by
          simp [appendAccess, List.find?, hbeq, hrest, hk]
        have hrw2 : appendAccess rest k e
            = rest.map (fun p => if p.1 == k then (p.1, p.2 ++ [e]) else p) := by
          simp [appendAccess, hrest]
        rw [hrw, hskip, hskip]
        rw [hrw2] at ih
        exact ih
      · have hrw : appendAccess (a :: rest) k e
            = a :: (rest ++ [(k, [e])]) := by
          simp [appendAccess, List.find?, hbeq, hrest, hk]
        have hrw2 : appendAccess rest k e = rest ++ [(k, [e])] := by
          simp [appendAccess, hrest]
        rw [hrw, hskip, hskip]
        rw [hrw2] at ih
        exact ih

/-- State for the specified OR scenario: rs (`r1`) holds the defined
concrete literal `0x1`, rt (`r2`) holds the symbol `"unknown_input"`. -/
def c1State : SimState :=
  ⟨[("r1", .literal 1 true 4), ("r2", .symbol "unknown_input")], 0x1000, none⟩

/-- Register operands `rd = r0, rs = r1, rt = r2`. -/
def c1Ops : RTypeOperands := ⟨"r0", "r1", "r2"⟩

/-- C1: simulating MIPS OR with rs holding the defined literal `0x1` and
rt holding the symbol `"unknown_input"` writes a symbol whose name is
`"unknown_input | unknown_input"` — built from the rt operand twice
(MIPSOr.py line 140) — and not the claimed canonical text
`"unknown_input | 0x1"`, so the destination name does not embed both
operands' textual forms. -/
theorem mipsOr_literal_symbol_text_bug :
    getReg (orSimulate c1Ops "0x1000" c1State).1 "r0"
      = SimValue.symbol "unknown_input | unknown_input"
    ∧ SimValue.symbol "unknown_input | unknown_input"
        ≠ SimValue.symbol "unknown_input | 0x1" := by
  decide

/-- State holding two equal concrete global addresses in `r1` and `r2`. -/
def c2AddrState : SimState :=
  ⟨[("r1", .globalAddress 0x1000), ("r2", .globalAddress 0x1000)], 0x400, none⟩

/-- State holding a constant-string address in `r1` and the literal `0x0`
in `r2`. -/
def c2StrState : SimState :=
  ⟨[("r1", .stringAddress "hello"), ("r2", .literal 0 true 4)], 0x400, none⟩

/-- BEQ operands `rs = r1, rt = r2`, target address `0x440`. -/
def c2Ops : BeqOperands := ⟨"r1", "r2", 0x440⟩

/-- C2: on two equal concrete addresses in the same region,
`MIPSBranchEqual.simulate` does not resolve the condition true: the guard
on line 120 (`src1val.is_string_address or src1val.is_address`) captures
every address in rs, yields `simUndefinedBool` because rt is not a
literal, and the routine raises `CHBSimBranchUnknownError`; the
equal-address branch of lines 125-131 is unreachable.  The second
conjunct confirms the constant-string half of the claim: a string address
compared against a literal resolves false and the fallthrough target
becomes the delayed counter. -/
theorem branchEqual_address_equality_behavior :
    beqSimulate c2Ops "0x400" c2AddrState
      = .error (.branchUnknown "0x400" 0x440 (0x400 + 8)
          ("branch-equal condition: 0x1000 == 0x1000"))
    ∧ beqSimulate c2Ops "0x400" c2StrState
      = .ok (⟨[("r1", .stringAddress "hello"), ("r2", .literal 0 true 4)],
              0x404, some 0x408⟩,
             "if string:hello == 0x0 then goto 0x440 else goto 0x408") :=
  ⟨rfl, rfl⟩

/-- C9 counterexample: `MIPSOr.__init__` performs no arity/tag check, so
constructing it from a record with zero arguments (instead of the three
the opcode documents) succeeds rather than failing. -/
theorem mipsOr_constructs_without_arity_check :
    mipsOrInit ⟨["or"], []⟩ = .ok ⟨⟨["or"], []⟩⟩
    ∧ ([] : List Nat).length ≠ 3 :=
  ⟨rfl, by decide⟩

/-- C9 amended: only the opcode classes that call `check_key` (`MIPSAnd`,
`ARMPush`) reject malformed tag/argument counts at construction time;
`MIPSOr`, `MIPSBranchEqual` and `MIPSShiftLeftLogicalVariable` construct
successfully from any record. -/
theorem opcode_arity_check_coverage (ix : IndexedTableValue) :
    (ix.tags.length ≠ 1 ∨ ix.args.length ≠ 3 →
      mipsAndInit ix = .error "Invalid And instruction record")
    ∧ mipsOrInit ix = .ok ⟨ix⟩
    ∧ mipsBranchEqualInit ix = .ok ⟨ix⟩
    ∧ mipsSllvInit ix = .ok ⟨ix⟩
    ∧ (ix.tags.length ≠ 2 ∨ ix.args.length ≠ 3 →
      armPushInit ix = .error "Invalid Push instruction record") := by
  refine ⟨?_, rfl, rfl, rfl, ?_⟩
  · intro h
    unfold mipsAndInit check_key
    have : ¬(ix.tags.length = 1 ∧ ix.args.length = 3) := by tauto
    simp [this]
  · intro h
    unfold armPushInit check_key
    have : ¬(ix.tags.length = 2 ∧ ix.args.length = 3) := by tauto
    simp [this]

/-- Witness for the amended C9 theorem at a malformed record with one tag
and one argument. -/
theorem opcode_arity_check_coverage_witness :
    (([("and" : String)], [(7 : Nat)]) : List String × List Nat).2.length ≠ 3
    ∧ (mipsAndInit ⟨["and"], [7]⟩ = .error "Invalid And instruction record"
        ∧ mipsOrInit ⟨["and"], [7]⟩ = .ok ⟨⟨["and"], [7]⟩⟩
        ∧ mipsBranchEqualInit ⟨["and"], [7]⟩ = .ok ⟨⟨["and"], [7]⟩⟩
        ∧ mipsSllvInit ⟨["and"], [7]⟩ = .ok ⟨⟨["and"], [7]⟩⟩
        ∧ armPushInit ⟨["and"], [7]⟩ = .error "Invalid Push instruction record") := by
  refine ⟨by decide, ?_⟩
  have h := opcode_arity_check_coverage ⟨["and"], [7]⟩
  exact ⟨h.1 (by decide), h.2.1, h.2.2.1, h.2.2.2.1, h.2.2.2.2 (by decide)⟩

/-- C10: `MIPSimBaseMemory.has_buffersize` evaluates the `buffersize`
property, which raises `CHBError("Buffersize of memory is not known")`
when no size was declared; when it does return, the returned int is never
`None`, so the method never returns False. -/
theorem has_buffersize_never_false (m : MIPSimBaseMemory) :
    (m.buffersizeval = none →
      m.has_buffersize = .error "Buffersize of memory is not known")
    ∧ ∀ b, m.has_buffersize = .ok b → b = true := by
  constructor
  · intro h
    simp [MIPSimBaseMemory.has_buffersize, MIPSimBaseMemory.buffersize, h]
  · intro b hb
    unfold MIPSimBaseMemory.has_buffersize MIPSimBaseMemory.buffersize at hb
    cases hbs : m.buffersizeval with
    | none => rw [hbs] at hb; cases hb
    | some v => rw [hbs] at hb; cases hb; rfl

/-- Witness for C10 at a region constructed without a declared size and a
region with a declared size of 16 bytes. -/
theorem has_buffersize_never_false_witness :
    (MIPSimBaseMemory.mk "baseregion" [] none "valid").buffersizeval = none
    ∧ MIPSimBaseMemory.has_buffersize ⟨"baseregion", [], none, "valid"⟩
        = .error "Buffersize of memory is not known"
    ∧ MIPSimBaseMemory.has_buffersize ⟨"baseregion", [], some 16, "valid"⟩
        = .ok true := by
  refine ⟨rfl, (has_buffersize_never_false ⟨"baseregion", [], none, "valid"⟩).1 rfl, ?_⟩
  have := (has_buffersize_never_false ⟨"baseregion", [], some 16, "valid"⟩).2
  rfl

/-- C8: a read through a base/heap region whose storage access raises —
in particular any read of a freed region — returns a descriptive symbolic
value embedding the region name, the offset and the error text, and the
exception is not propagated (`MIPSimBaseMemory.get` is total). -/
theorem baseMemory_error_degrades_to_symbol (m : MIPSimBaseMemory)
    (iaddr : String) (address : SimAddress) (size : Nat) :
    (m.is_valid = false →
      m.get iaddr address size
        = .symbol (m.name ++ "[" ++ toString address.offsetvalue ++ "]"
            ++ " (value not retrieved: " ++ "attempt to access freed memory"
            ++ ")"))
    ∧ ∀ e, simMemoryGet m.is_valid m.bytes address.offsetvalue size = .error e →
        m.get iaddr address size
          = .symbol (m.name ++ "[" ++ toString address.offsetvalue ++ "]"
              ++ " (value not retrieved: " ++ e ++ ")") := by
  constructor
  · intro h
    unfold MIPSimBaseMemory.get simMemoryGet
    rw [h]
    simp
  · intro e he
    unfold MIPSimBaseMemory.get
    rw [he]

/-- Witness for C8: reading offset 12 of an explicitly freed base region
named `"baseregion_0x447000"` yields the descriptive symbol and no
exception. -/
theorem baseMemory_error_degrades_to_symbol_witness :
    (MIPSimBaseMemory.free ⟨"baseregion_0x447000", [], some 32, "valid"⟩).is_valid
        = false
    ∧ (MIPSimBaseMemory.free ⟨"baseregion_0x447000", [], some 32, "valid"⟩).get
          "0x5000" ⟨12, true⟩ 4
        = .symbol ("baseregion_0x447000" ++ "[" ++ toString (12 : Nat) ++ "]"
            ++ " (value not retrieved: " ++ "attempt to access freed memory"
            ++ ")") :=
  ⟨rfl,
   (baseMemory_error_degrades_to_symbol
     (MIPSimBaseMemory.free ⟨"baseregion_0x447000", [], some 32, "valid"⟩)
     "0x5000" ⟨12, true⟩ 4).1 rfl⟩

/-- C4: simulating a taken `beq` (both operands the same defined literal)
at program counter `p` leaves the counter observed by the next step at the
fallthrough address `p + 4` and stores the branch target as the pending
delayed counter; only the program-counter advance performed by that next
(delay-slot) step installs the target as the active counter. -/
theorem beq_taken_branch_delay_slot (op : BeqOperands) (iaddr : String)
    (s : SimState) (a : Nat)
    (h1 : get_rhs s op.src1 = SimValue.literal a true 4)
    (h2 : get_rhs s op.src2 = SimValue.literal a true 4)
    (hd : s.delayed_programcounter = none) :
    (∃ tr, beqSimulate op iaddr s
      = .ok (⟨s.registers, s.programcounter + 4, some op.tgt⟩, tr))
    ∧ (increment_program_counter
        ⟨s.registers, s.programcounter + 4, some op.tgt⟩).programcounter
        = op.tgt
    ∧ (increment_program_counter
        ⟨s.registers, s.programcounter + 4, some op.tgt⟩).delayed_programcounter
        = none := by
  refine ⟨?_, by simp [increment_program_counter], by simp [increment_program_counter]⟩
  refine ⟨simbranch iaddr ⟨s.registers, s.programcounter + 4, some op.tgt⟩
    op.tgt (s.programcounter + 8) (hexStr a ++ " == " ++ hexStr a) simtrue, ?_⟩
  unfold beqSimulate
  rw [h1, h2]
  simp [SimValue.is_string_address, SimValue.is_address, SimValue.is_literal,
    SimValue.is_file_pointer, is_equal, simtrue, SimValue.is_defined,
    SimValue.is_true, increment_program_counter, set_delayed_program_counter,
    hd, simbranch, strv]

/-- Witness for C4: a taken `beq` at counter `0x400` with both operands
holding the defined literal `5` and branch target `0x800`. -/
theorem beq_taken_branch_delay_slot_witness :
    get_rhs ⟨[("r4", .literal 5 true 4), ("r5", .literal 5 true 4)], 0x400, none⟩
        "r4" = SimValue.literal 5 true 4
    ∧ ((∃ tr, beqSimulate ⟨"r4", "r5", 0x800⟩ "0x400"
          ⟨[("r4", .literal 5 true 4), ("r5", .literal 5 true 4)], 0x400, none⟩
        = .ok (⟨[("r4", .literal 5 true 4), ("r5", .literal 5 true 4)],
                0x400 + 4, some 0x800⟩, tr))
      ∧ (increment_program_counter
          ⟨[("r4", .literal 5 true 4), ("r5", .literal 5 true 4)],
            0x400 + 4, some 0x800⟩).programcounter = 0x800
      ∧ (increment_program_counter
          ⟨[("r4", .literal 5 true 4), ("r5", .literal 5 true 4)],
            0x400 + 4, some 0x800⟩).delayed_programcounter = none) :=
  ⟨rfl,
   beq_taken_branch_delay_slot ⟨"r4", "r5", 0x800⟩ "0x400"
     ⟨[("r4", .literal 5 true 4), ("r5", .literal 5 true 4)], 0x400, none⟩
     5 rfl rfl rfl⟩

/-- Static image with no mapped sections and an empty global region. -/
def c3gm : MIPSimGlobalMemory :=
  ⟨[], ⟨fun _ => none, fun _ _ => none⟩, [], []⟩

/-- An address outside any mapped section. -/
def c3addr : SimAddress := ⟨0x7000, true⟩

/-- The uninitialized diagnostic the unmapped read produces. -/
def c3msg : String × String := ("global memory", "0x7000 uninitialized")

/-- C3 counterexample: a repeated global read of the same unmapped
address is not served from the overlay — the first read leaves the global
memory unchanged, and the second read of the very same address logs the
`uninitialized` diagnostic again, so the diagnostic is not logged exactly
once per first access. -/
theorem globalGet_unmapped_relogs :
    globalGet c3gm [] "0x400" c3addr 4 = .ok (mk_simvalue 0 4, c3gm, [c3msg])
    ∧ globalGet c3gm [c3msg] "0x404" c3addr 4
        = .ok (mk_simvalue 0 4, c3gm, [c3msg, c3msg])
    ∧ [c3msg, c3msg].length ≠ 1 :=
  ⟨rfl, rfl, by decide⟩

/-- C3 amended: a global read at a defined address outside any mapped
section (no overlay byte, no patch, no section) returns a zero-valued
literal of the requested size and appends one `uninitialized` diagnostic
to the log on every such access; the overlay and access history are left
unchanged, so a repeated read of the same address repeats the diagnostic
rather than being served from the overlay. -/
theorem globalGet_unmapped_zero_and_log (gm : MIPSimGlobalMemory)
    (log : List (String × String)) (iaddr : String) (address : SimAddress)
    (size : Nat)
    (hdef : address.defined = true)
    (hmiss : lookupByte gm.bytes address.offsetvalue = none)
    (hpos : 0 < size)
    (hpatch : lookupStr gm.patched_globals (hexStr address.offsetvalue) = none)
    (hsec : gm.elfheader.get_elf_section_index address.offsetvalue = none) :
    globalGet gm log iaddr address size
      = .ok (mk_simvalue 0 size, gm,
          log ++ [("global memory", strAddr address ++ " uninitialized")]) := by
  obtain ⟨k, rfl⟩ : ∃ k, size = k + 1 :=
    ⟨size - 1, (Nat.succ_pred_eq_of_pos hpos).symm⟩
  unfold globalGet simMemoryGet
  simp only [getSpan, hmiss]
  unfold get_from_section
  simp [hdef, has_patched_global, hpatch, hsec]

/-- Witness for the amended C3 theorem at the concrete unmapped read. -/
theorem globalGet_unmapped_zero_and_log_witness :
    c3addr.defined = true
    ∧ lookupByte c3gm.bytes c3addr.offsetvalue = none
    ∧ globalGet c3gm [] "0x400" c3addr 4
        = .ok (mk_simvalue 0 4, c3gm,
            [] ++ [("global memory", strAddr c3addr ++ " uninitialized")]) :=
  ⟨rfl, rfl,
   globalGet_unmapped_zero_and_log c3gm [] "0x400" c3addr 4
     rfl rfl (by decide) rfl rfl⟩

/-- C5: a global read of a defined address present in the patch table
returns the table's 4-byte replacement value, for every static image —
the patch takes precedence over the file image (the overlay, consulted
first, holds no byte for the address). -/
theorem globalGet_patched_precedence (gm : MIPSimGlobalMemory)
    (log : List (String × String)) (iaddr : String) (address : SimAddress)
    (size : Nat) (hexval : String)
    (hdef : address.defined = true)
    (hmiss : lookupByte gm.bytes address.offsetvalue = none)
    (hpos : 0 < size)
    (hpatch : lookupStr gm.patched_globals (hexStr address.offsetvalue)
        = some hexval) :
    globalGet gm log iaddr address size
      = .ok (mk_simvalue (parseHex hexval) 4, gm, log) := by
  obtain ⟨k, rfl⟩ : ∃ k, size = k + 1 :=
    ⟨size - 1, (Nat.succ_pred_eq_of_pos hpos).symm⟩
  unfold globalGet simMemoryGet
  simp only [getSpan, hmiss]
  unfold get_from_section
  simp [hdef, has_patched_global, get_patched_global, hpatch]

/-- Global memory for the C5 witness: the image maps every address to
section 1 with byte content `0x11`, while the patch table replaces address
`0x2000` with `0xdeadbeef`. -/
def c5gm : MIPSimGlobalMemory :=
  ⟨[], ⟨fun _ => some 1, fun _ _ => some 0x11⟩, [],
   [("0x2000", "0xdeadbeef")]⟩

/-- Witness for C5: the patched address returns `0xdeadbeef` even though
the mapped static image holds `0x11111111` there. -/
theorem globalGet_patched_precedence_witness :
    lookupStr c5gm.patched_globals (hexStr (0x2000 : Nat)) = some "0xdeadbeef"
    ∧ parseHex "0xdeadbeef" = 0xdeadbeef
    ∧ globalGet c5gm [] "0x700" ⟨0x2000, true⟩ 4
        = .ok (mk_simvalue (parseHex "0xdeadbeef") 4, c5gm, []) :=
  ⟨rfl, by decide,
   globalGet_patched_precedence c5gm [] "0x700" ⟨0x2000, true⟩ 4 "0xdeadbeef"
     rfl rfl (by decide) rfl⟩

/-- Global memory whose patch table covers address `0x3000` while the
static image maps every address to section 1 with byte `0x22`. -/
def c7pgm : MIPSimGlobalMemory :=
  ⟨[], ⟨fun _ => some 1, fun _ _ => some 0x22⟩, [],
   [("0x3000", "0x12345678")]⟩

/-- C7 counterexample: a global read of a patched address returns a value
but the per-address access history of the returned memory is unchanged
and holds no entry for the address, so not every resolved access is
recorded. -/
theorem globalGet_patched_read_unrecorded :
    globalGet c7pgm [] "0x600" ⟨0x3000, true⟩ 4
      = .ok (mk_simvalue (parseHex "0x12345678") 4, c7pgm, [])
    ∧ c7pgm.accesses = []
    ∧ lookupAccess c7pgm.accesses (strAddr ⟨0x3000, true⟩) = none :=
  ⟨rfl, rfl, rfl⟩

/-- C7 amended: exactly the global reads materialized from a mapped
section of the static image are recorded: when a read at a defined,
unpatched address with a resolved section index succeeds, the returned
memory's history for that address ends with the new
`instruction-address:value` entry.  Overlay hits, patch-table hits and
unmapped zero reads leave the history unchanged. -/
theorem globalGet_section_read_recorded (gm : MIPSimGlobalMemory)
    (log : List (String × String)) (iaddr : String) (address : SimAddress)
    (size si : Nat) (v : SimValue) (gm' : MIPSimGlobalMemory)
    (log' : List (String × String))
    (hdef : address.defined = true)
    (hmiss : lookupByte gm.bytes address.offsetvalue = none)
    (hpos : 0 < size)
    (hpatch : lookupStr gm.patched_globals (hexStr address.offsetvalue) = none)
    (hsec : gm.elfheader.get_elf_section_index address.offsetvalue = some si)
    (hok : globalGet gm log iaddr address size = .ok (v, gm', log')) :
    lookupAccess gm'.accesses (strAddr address)
      = some ((lookupAccess gm.accesses (strAddr address)).getD []
          ++ [iaddr ++ ":" ++ strv v]) := by
  obtain ⟨k, rfl⟩ : ∃ k, size = k + 1 :=
    ⟨size - 1, (Nat.succ_pred_eq_of_pos hpos).symm⟩
  unfold globalGet simMemoryGet at hok
  simp only [getSpan, hmiss] at hok
  unfold get_from_section at hok
  simp only [hdef, has_patched_global, hpatch, hsec, Option.isSome_none,
    if_true, if_false, Bool.false_eq_true, reduceIte] at hok
  split at hok
  · exact absurd hok (by simp)
  · split at hok
    · exact absurd hok (by simp)
    · simp only [Except.ok.injEq, Prod.mk.injEq] at hok
      obtain ⟨hv, hgm, hlog⟩ := hok
      subst hgm
      simp only []
      rw [hv]
      exact appendAccess_lookup gm.accesses (strAddr address) _

/-- Global memory for the C7 witness: every address resolves to section 2
and every image byte is `0xAB`. -/
def c7sgm : MIPSimGlobalMemory :=
  ⟨[], ⟨fun _ => some 2, fun _ _ => some 0xAB⟩, [], []⟩

/-- The materialized state of `c7sgm` after a 4-byte read at `0x6000`
from instruction address `0x500`. -/
def c7sgmAfter : MIPSimGlobalMemory :=
  ⟨[(0x6003, 0xAB), (0x6002, 0xAB), (0x6001, 0xAB), (0x6000, 0xAB)],
   ⟨fun _ => some 2, fun _ _ => some 0xAB⟩,
   [("0x6000", ["0x500:0xabababab"])], []⟩

/-- Witness for the amended C7 theorem at a concrete section-backed
read. -/
theorem globalGet_section_read_recorded_witness :
    globalGet c7sgm [] "0x500" ⟨0x6000, true⟩ 4
      = .ok (.literal 0xABABABAB true 4, c7sgmAfter,
          [("global memory", "0x6000 uninitialized")])
    ∧ lookupAccess c7sgmAfter.accesses (strAddr ⟨0x6000, true⟩)
        = some ((lookupAccess c7sgm.accesses (strAddr ⟨0x6000, true⟩)).getD []
            ++ ["0x500" ++ ":" ++ strv (.literal 0xABABABAB true 4)]) :=
  ⟨rfl,
   globalGet_section_read_recorded c7sgm [] "0x500" ⟨0x6000, true⟩ 4 2
     (.literal 0xABABABAB true 4) c7sgmAfter
     [("global memory", "0x6000 uninitialized")]
     rfl rfl (by decide) rfl rfl rfl⟩

/-- Operands `rd = r0, rs = r1, rt = r2` for the ALU theorems. -/
def aluOps : RTypeOperands := ⟨"r0", "r1", "r2"⟩

/-- Register state holding the defined literals `a` in `r1` and `b` in
`r2`. -/
def aluState (a b pc : Nat) : SimState :=
  ⟨[("r1", .literal a true 4), ("r2", .literal b true 4)], pc, none⟩

/-- C6: for all defined concrete 32-bit literals `a`, `b`, simulating AND
(resp. OR) writes the bit-accurate bitwise conjunction (resp. disjunction)
at the 32-bit operand width to the destination and advances the counter;
at the claimed scenario `AND 0x000000F0, 0x0000FF00` the destination
receives `0x00000000` and the returned trace reports `r0 := 0x0`. -/
theorem alu_and_or_bitaccurate (a b pc : Nat)
    (ha : a < 2 ^ 32) (hb : b < 2 ^ 32) :
    (∃ s1 t1, andSimulate aluOps "0x100" (aluState a b pc) = .ok (s1, t1)
      ∧ getReg s1 "r0" = .literal (a &&& b) true 4
      ∧ s1.programcounter = pc + 4
      ∧ strLeads ("r0" ++ " := " ++ hexStr (a &&& b)) t1 = true)
    ∧ getReg (orSimulate aluOps "0x100" (aluState a b pc)).1 "r0"
        = .literal (a ||| b) true 4
    ∧ strLeads ("r0" ++ " := " ++ hexStr (a ||| b))
        (orSimulate aluOps "0x100" (aluState a b pc)).2 = true
    ∧ (∃ s2 t2, andSimulate aluOps "0x100" (aluState 0xF0 0xFF00 0x100)
          = .ok (s2, t2)
        ∧ getReg s2 "r0" = .literal 0 true 4
        ∧ strLeads "r0 := 0x0" t2 = true) := by
  have hand : (a &&& b) % 2 ^ 32 = a &&& b :=
    Nat.mod_eq_of_lt (Nat.and_lt_two_pow a hb)
  have hor : (a ||| b) % 2 ^ 32 = a ||| b :=
    Nat.mod_eq_of_lt (Nat.or_lt_two_pow ha hb)
  refine ⟨⟨?_, ?_, ?_, ?_, ?_, ?_⟩, ?_, ?_, ?_⟩
  case _ => exact
    ⟨("r0", .literal (a &&& b) true 4) :: (aluState a b pc).registers,
     pc + 4, none⟩
  case _ => exact
    "r0" ++ " := " ++ hexStr (a &&& b) ++ " ("
      ++ ("val(" ++ "r1" ++ ") = " ++ strv (.literal a true 4)
          ++ ", val(" ++ "r2" ++ ") = " ++ strv (.literal b true 4)) ++ ")"
  · unfold andSimulate
    simp [aluOps, aluState, get_rhs, getReg, List.find?, SimValue.is_symbolic,
      bitwise_and, stateSet, increment_program_counter, simassign, strv, hand]
    refine ⟨Nat.and_lt_two_pow a hb, ?_⟩
    rw [show (a &&& b) % 4294967296 = a &&& b from hand]
  · simp [getReg, List.find?]
  · rfl
  · exact strLeads_append_right _ _ _ (strLeads_append_right _ _ _
      (strLeads_self_append _ _))
  · unfold orSimulate
    simp [aluOps, aluState, get_rhs, getReg, List.find?, SimValue.is_literal,
      SimValue.is_defined, bitwise_or, stateSet, increment_program_counter,
      hor]
    exact Nat.or_lt_two_pow ha hb
  · have e1 : get_rhs (aluState a b pc) aluOps.src1
        = SimValue.literal a true 4 := rfl
    have e2 : get_rhs (aluState a b pc) aluOps.src2
        = SimValue.literal b true 4 := rfl
    unfold orSimulate
    simp only [e1, e2, SimValue.is_literal, SimValue.is_defined,
      Bool.true_and, Bool.and_true, Bool.and_self, eq_self_iff_true, if_true,
      bitwise_or, stateSet, increment_program_counter, simassign, strv, hor]
    exact strLeads_append_right _ _ _ (strLeads_append_right _ _ _
      (strLeads_self_append _ _))
  · exact ⟨⟨[("r0", .literal 0 true 4), ("r1", .literal 0xF0 true 4),
        ("r2", .literal 0xFF00 true 4)], 0x104, none⟩,
      "r0 := 0x0 (val(r1) = 0xf0, val(r2) = 0xff00)", rfl, by decide, by decide⟩

/-- Witness for C6 at the specified scenario operands `0x000000F0` and
`0x0000FF00`. -/
theorem alu_and_or_bitaccurate_witness :
    (0xF0 : Nat) < 2 ^ 32 ∧ (0xFF00 : Nat) < 2 ^ 32
    ∧ ((∃ s1 t1, andSimulate aluOps "0x100" (aluState 0xF0 0xFF00 0x100)
          = .ok (s1, t1)
        ∧ getReg s1 "r0" = .literal (0xF0 &&& 0xFF00) true 4
        ∧ s1.programcounter = 0x100 + 4
        ∧ strLeads ("r0" ++ " := " ++ hexStr (0xF0 &&& 0xFF00)) t1 = true)
      ∧ getReg (orSimulate aluOps "0x100" (aluState 0xF0 0xFF00 0x100)).1 "r0"
          = .literal (0xF0 ||| 0xFF00) true 4
      ∧ strLeads ("r0" ++ " := " ++ hexStr (0xF0 ||| 0xFF00))
          (orSimulate aluOps "0x100" (aluState 0xF0 0xFF00 0x100)).2 = true
      ∧ (∃ s2 t2, andSimulate aluOps "0x100" (aluState 0xF0 0xFF00 0x100)
            = .ok (s2, t2)
          ∧ getReg s2 "r0" = .literal 0 true 4
          ∧ strLeads "r0 := 0x0" t2 = true)) :=
  ⟨by decide, by decide,
   alu_and_or_bitaccurate 0xF0 0xFF00 0x100 (by decide) (by decide)⟩
